import Mathlib

/-
Verification of the copier folder-browser core (src/src/components/folder-browser.tsx).

The development shallowly embeds the three core routines of the component:
the recursive directory scan (scanDirectory), the selection model
(toggleItemSelection with getAllChildItems), and the content concatenator
(processSelectedFiles with processDirectory and collectFileItemsUnderPath),
together with the two clearing actions (clearSelection, clearAll).

File-system handles are modelled by the inductive FSNode: a file node carries
the outcome of getFile().text() as an Except value (error reason or content),
a directory node carries its ordered list of children as yielded by entries().
React state updates become explicit state passing; the DirectoryStructure
object becomes an insertion-ordered association list mirroring the iteration
order of Object.entries on string-keyed objects.
-/

namespace Copier

/-- Kind of an entry, mirroring the kind field of a handle and the
type field of a FileItem, which take the values file and directory. -/
inductive EntryKind where
  | file
  | directory
deriving DecidableEq

/-- A file-system node as seen through the File System Access API.
A file node records its name and the result of getFile().text():
ok content on success, error reason when the read rejects.
A directory node records its name and the entries() sequence in
enumeration order. -/
inductive FSNode where
  | file (name : String) (read : Except String String)
  | dir (name : String) (children : List FSNode)

/-- Name of a node, mirroring handle.name. -/
def FSNode.name : FSNode → String
  | .file n _ => n
  | .dir n _ => n

/-- Kind of a node, mirroring handle.kind. -/
def FSNode.kind : FSNode → EntryKind
  | .file _ _ => .file
  | .dir _ _ => .directory

/-- Whether the handle supports getFile, mirroring the JavaScript test
(getFile in handle): true exactly for file handles. -/
def hasGetFile : FSNode → Bool
  | .file _ _ => true
  | .dir _ _ => false

/-- A FileItem of the component. The file field models an attached File
object from the fallback upload path, holding the outcome of file.text();
the handle field models an attached FileSystemHandle from the scan path.
The content field is declared in the source interface but never written. -/
structure FileItem where
  handle : Option FSNode := none
  file : Option (Except String String) := none
  name : String
  type : EntryKind
  selected : Bool
  content : Option String := none
  path : String

/-- The directoryStructure state: a string-keyed object mapping a directory
path to its immediate child items, modelled as an association list in key
insertion order (the iteration order of Object.entries for such keys). -/
abbrev DirectoryStructure := List (String × List FileItem)

/-- Object property lookup with default, mirroring
(directoryStructure[parentPath] or []). -/
def structGet (st : DirectoryStructure) (k : String) : List FileItem :=
  match st with
  | [] => []
  | (k2, v) :: rest => if k2 == k then v else structGet rest k

/-- Spread-merge of a one-key object into the structure, mirroring
setDirectoryStructure(prev => (...prev, ...newStructure)): an existing key
is overwritten in place, a new key is appended. -/
def structInsert (st : DirectoryStructure) (k : String) (v : List FileItem) :
    DirectoryStructure :=
  if st.any (fun p => p.1 == k) then
    st.map (fun p => if p.1 == k then (k, v) else p)
  else
    st ++ [(k, v)]

/-- Character-list prefix test used to model the JavaScript method
String.prototype.startsWith. -/
def charsStartWith : List Char → List Char → Bool
  | [], _ => true
  | _ :: _, [] => false
  | a :: as, b :: bs => a == b && charsStartWith as bs

/-- Model of the JavaScript call s.startsWith(p). -/
def jsStartsWith (s p : String) : Bool := charsStartWith p.data s.data

/-- JavaScript whitespace (WhiteSpace and LineTerminator code points),
as removed by String.prototype.trim. -/
def isJsWhitespace (c : Char) : Bool :=
  c.val == 9 || c.val == 10 || c.val == 11 || c.val == 12 || c.val == 13 ||
  c.val == 32 || c.val == 160 || c.val == 0x1680 ||
  (0x2000 ≤ c.val && c.val ≤ 0x200a) ||
  c.val == 0x2028 || c.val == 0x2029 || c.val == 0x202f ||
  c.val == 0x205f || c.val == 0x3000 || c.val == 0xfeff

/-- Model of the JavaScript call s.trim(): strip leading and trailing
whitespace. -/
def jsTrim (s : String) : String :=
  String.mk (((s.data.dropWhile isJsWhitespace).reverse.dropWhile
    isJsWhitespace).reverse)

mutual

/-- Embedding of scanDirectory (folder-browser.tsx lines 119 to 151).
Given the directory handle and the currentPath argument, it threads the
directoryStructure state: each child directory is scanned during the loop,
then the one-key object for currentPath is merged into the structure.  On a
file handle the entries() call throws at once, the catch logs, and the
structure is left untouched. -/
def scanDirectory : FSNode → String → DirectoryStructure → DirectoryStructure
  | .file _ _, _, st => st
  | .dir n cs, currentPath, st =>
    let r := scanChildren n currentPath cs st
    structInsert r.2 currentPath r.1

/-- Loop body of scanDirectory over the enumerated entries: builds the items
array for the current level while recursing into subdirectories. -/
def scanChildren (handleName currentPath : String) :
    List FSNode → DirectoryStructure → List FileItem × DirectoryStructure
  | [], st => ([], st)
  | c :: rest, st =>
    let itemPath :=
      if currentPath == handleName then c.name
      else currentPath ++ "/" ++ c.name
    let item : FileItem :=
      { handle := some c, name := c.name, type := c.kind,
        selected := false, path := itemPath }
    let st1 :=
      match c with
      | .dir n cs => scanDirectory (.dir n cs) itemPath st
      | .file _ _ => st
    let r := scanChildren handleName currentPath rest st1
    (item :: r.1, r.2)

end

/-- Entry point of a scan as invoked by selectFolder:
scanDirectory(directoryHandle, directoryHandle.name) on the picked root. -/
def scanFromRoot (root : FSNode) : DirectoryStructure :=
  scanDirectory root root.name []

/-- Embedding of getAllChildItems (lines 190 to 204): all items recorded in
the structure whose path extends folderPath plus a slash, in structure
iteration order, re-marked as selected. -/
def getAllChildItems (st : DirectoryStructure) (folderPath : String) :
    List FileItem :=
  match st with
  | [] => []
  | (dirPath, items) :: rest =>
    (if jsStartsWith dirPath (folderPath ++ "/") || dirPath == folderPath then
      (items.filter (fun it => jsStartsWith it.path (folderPath ++ "/"))).map
        (fun it => { it with selected := true })
    else []) ++ getAllChildItems rest folderPath

/-- Embedding of toggleItemSelection (lines 165 to 188) as a function of the
directoryStructure, the selectedItems list and the toggled item. -/
def toggleItemSelection (st : DirectoryStructure) (sel : List FileItem)
    (item : FileItem) : List FileItem :=
  let isCurrentlySelected := sel.any (fun s => s.path == item.path)
  if isCurrentlySelected then
    if item.type == EntryKind.directory then
      sel.filter (fun s =>
        s.path != item.path && !(jsStartsWith s.path (item.path ++ "/")))
    else
      sel.filter (fun s => s.path != item.path)
  else
    if item.type == EntryKind.directory then
      sel.filter (fun s =>
        s.path != item.path && !(jsStartsWith s.path (item.path ++ "/")))
        ++ [{ item with selected := true }] ++ getAllChildItems st item.path
    else
      sel ++ [{ item with selected := true }]

/-- Embedding of collectFileItemsUnderPath (lines 298 to 310): the cached
file items recorded under folderPath, in structure iteration order. -/
def collectFileItemsUnderPath (st : DirectoryStructure) (folderPath : String) :
    List FileItem :=
  match st with
  | [] => []
  | (dirPath, items) :: rest =>
    (if dirPath == folderPath || jsStartsWith dirPath (folderPath ++ "/") then
      items.filter (fun it =>
        it.type == EntryKind.file && jsStartsWith it.path (folderPath ++ "/"))
    else []) ++ collectFileItemsUnderPath rest folderPath

/-- How processSelectedFiles obtains the text of a selected file item
(lines 220 to 229): the attached File object first, then the handle when it
supports getFile, otherwise the thrown error No readable handle for file. -/
def readFileItem (item : FileItem) : Except String String :=
  match item.file with
  | some r => r
  | none =>
    match item.handle with
    | some (.file _ r) => r
    | some (.dir _ _) => Except.error "No readable handle for file"
    | none => Except.error "No readable handle for file"

/-- The block header written before each content piece:
two newlines, the framed path, one newline. -/
def header (path : String) : String := "\n\n=== " ++ path ++ " ===\n"

/-- The in-document marker substituted for content when a file read throws
(error.message is the carried reason). -/
def errorMarker (reason : String) : String :=
  "[Error reading file: " ++ reason ++ "]"

mutual

/-- Embedding of processDirectory (lines 267 to 296). Invoked by the source
on a value cast to FileSystemDirectoryHandle; on a file handle the entries()
call throws at once, the catch logs, and the empty accumulator is returned. -/
def processDirectory : FSNode → String → String
  | .file _ _, _ => ""
  | .dir _ children, basePath => processEntries children basePath ""

/-- Loop of processDirectory over the enumerated entries, accumulating the
content string: a file entry appends its header and content, or the error
marker when the read fails; a directory entry appends its recursive result. -/
def processEntries : List FSNode → String → String → String
  | [], _, acc => acc
  | .file name r :: rest, basePath, acc =>
    let itemPath := basePath ++ "/" ++ name
    let acc :=
      match r with
      | .ok c => acc ++ header itemPath ++ c
      | .error e => acc ++ header itemPath ++ errorMarker e
    processEntries rest basePath acc
  | .dir name cs :: rest, basePath, acc =>
    let acc := acc ++ processDirectory (.dir name cs) (basePath ++ "/" ++ name)
    processEntries rest basePath acc

end

/-- Loop of the handle-less directory branch of processSelectedFiles
(lines 242 to 253): each cached file item contributes its header and the
text of its attached File object, the empty string when no File object is
attached, or the error marker when the read fails. -/
def processCachedFiles : List FileItem → String → String
  | [], acc => acc
  | f :: rest, acc =>
    let acc :=
      match f.file with
      | none => acc ++ header f.path ++ ""
      | some (.ok c) => acc ++ header f.path ++ c
      | some (.error e) => acc ++ header f.path ++ errorMarker e
    processCachedFiles rest acc

/-- Main loop of processSelectedFiles (lines 217 to 256) over the selected
items, accumulating combinedContent. -/
def processItems (st : DirectoryStructure) :
    List FileItem → String → String
  | [], acc => acc
  | item :: rest, acc =>
    let acc :=
      match item.type with
      | EntryKind.file =>
        match readFileItem item with
        | .ok c => acc ++ header item.path ++ c
        | .error e => acc ++ header item.path ++ errorMarker e
      | EntryKind.directory =>
        match item.handle with
        | some h => acc ++ processDirectory h item.path
        | none => processCachedFiles (collectFileItemsUnderPath st item.path) acc
    processItems st rest acc

/-- User-facing notices raised by processSelectedFiles: the informational
empty-selection notice, and the aggregate failure notice of the outer catch.
In this embedding every per-item failure is absorbed inside the loop, so the
outer catch never fires and the aggregate notice is never emitted. -/
inductive Notice where
  | nothingToProcess
  | failedToProcess
deriving DecidableEq

/-- Result of one processSelectedFiles call: the outputContent state after
the call and the notices raised during it. -/
structure ProcessResult where
  outputContent : String
  notices : List Notice
deriving DecidableEq

/-- Embedding of processSelectedFiles (lines 206 to 265): with an empty
selection it raises the empty-selection notice and leaves outputContent
unchanged; otherwise it stores the trimmed concatenation. -/
def processSelectedFiles (st : DirectoryStructure) (sel : List FileItem)
    (out : String) : ProcessResult :=
  if sel.length == 0 then
    { outputContent := out, notices := [Notice.nothingToProcess] }
  else
    { outputContent := jsTrim (processItems st sel ""), notices := [] }

/-- Component state touched by the two clearing actions. -/
structure BrowserState where
  directoryStructure : DirectoryStructure
  selectedItems : List FileItem
  outputContent : String
  rootPath : String
  expandedFolders : List String

/-- Embedding of clearSelection (lines 328 to 331): it resets selectedItems
and also resets outputContent. -/
def clearSelection (s : BrowserState) : BrowserState :=
  { s with selectedItems := [], outputContent := "" }

/-- Embedding of clearAll (lines 333 to 339). -/
def clearAll (s : BrowserState) : BrowserState :=
  { s with
    selectedItems := [],
    outputContent := "",
    directoryStructure := [],
    expandedFolders := [],
    rootPath := "" }

/-! Specification-side view of the produced document as an ordered list of
blocks, each a pair of a path and a body.  The correspondence between the
accumulator-style string building of the source and this block list is
proved below. -/

/-- Body of a block for a read outcome: the content on success, the error
marker on failure. -/
def bodyOf : Except String String → String
  | .ok c => c
  | .error e => errorMarker e

mutual

/-- Blocks contributed by processDirectory on a node. -/
def dirBlocks : FSNode → String → List (String × String)
  | .file _ _, _ => []
  | .dir _ children, basePath => childBlocks children basePath

/-- Blocks contributed by the enumerated entries of a directory, in
enumeration order, subdirectories expanded recursively in place. -/
def childBlocks : List FSNode → String → List (String × String)
  | [], _ => []
  | .file name r :: rest, basePath =>
    (basePath ++ "/" ++ name, bodyOf r) :: childBlocks rest basePath
  | .dir name cs :: rest, basePath =>
    dirBlocks (.dir name cs) (basePath ++ "/" ++ name)
      ++ childBlocks rest basePath

end

/-- Block contributed by one cached file item in the handle-less directory
branch: the text of the attached File object, the empty string when none is
attached, the error marker when the read fails. -/
def cachedBlock (f : FileItem) : String × String :=
  match f.file with
  | none => (f.path, "")
  | some (.ok c) => (f.path, c)
  | some (.error e) => (f.path, errorMarker e)

/-- Blocks contributed by one selected item. -/
def itemBlocks (st : DirectoryStructure) (item : FileItem) :
    List (String × String) :=
  match item.type with
  | EntryKind.file =>
    match readFileItem item with
    | .ok c => [(item.path, c)]
    | .error e => [(item.path, errorMarker e)]
  | EntryKind.directory =>
    match item.handle with
    | some h => dirBlocks h item.path
    | none => (collectFileItemsUnderPath st item.path).map cachedBlock

/-- Blocks of the whole document, in selection order. -/
def selectionBlocks (st : DirectoryStructure) : List FileItem → List (String × String)
  | [] => []
  | item :: rest => itemBlocks st item ++ selectionBlocks st rest

/-- Serialization of a block list: each block rendered as its header
followed by its body. -/
def renderBlocks : List (String × String) → String
  | [] => ""
  | b :: bs => header b.1 ++ b.2 ++ renderBlocks bs

/-- Concatenation of a list of strings in order. -/
def joinStrings : List String → String
  | [] => ""
  | s :: rest => s ++ joinStrings rest

/-! Helper lemmas. -/

theorem charsStartWith_iff (p s : List Char) :
    charsStartWith p s = true ↔ ∃ t, s = p ++ t := by
  induction p generalizing s with
  | nil =>
    constructor
    · intro _
      exact ⟨s, rfl⟩
    · intro _
      rfl
  | cons a as ih =>
    cases s with
    | nil =>
      simp [charsStartWith]
    | cons b bs =>
      simp only [charsStartWith, Bool.and_eq_true, beq_iff_eq, ih,
        List.cons_append, List.cons.injEq]
      constructor
      · rintro ⟨rfl, t, rfl⟩
        exact ⟨t, rfl, rfl⟩
      · rintro ⟨t, rfl, rfl⟩
        exact ⟨rfl, t, rfl⟩

theorem jsStartsWith_iff (s p : String) :
    jsStartsWith s p = true ↔ ∃ t : String, s = p ++ t := by
  unfold jsStartsWith
  rw [charsStartWith_iff]
  constructor
  · rintro ⟨t, ht⟩
    exact ⟨String.mk t, String.ext (by simpa [String.data_append] using ht)⟩
  · rintro ⟨t, rfl⟩
    exact ⟨t.data, by simp [String.data_append]⟩

theorem renderBlocks_append (a b : List (String × String)) :
    renderBlocks (a ++ b) = renderBlocks a ++ renderBlocks b := by
  induction a with
  | nil => simp [renderBlocks]
  | cons x xs ih => simp [renderBlocks, ih, String.append_assoc]

theorem selectionBlocks_append (st : DirectoryStructure)
    (a b : List FileItem) :
    selectionBlocks st (a ++ b) = selectionBlocks st a ++ selectionBlocks st b := by
  induction a with
  | nil => simp [selectionBlocks]
  | cons x xs ih => simp [selectionBlocks, ih]

theorem childBlocks_append (a b : List FSNode) (bp : String) :
    childBlocks (a ++ b) bp = childBlocks a bp ++ childBlocks b bp := by
  induction a with
  | nil => simp [childBlocks]
  | cons x xs ih =>
    cases x with
    | file n r => simp [childBlocks, ih]
    | dir n cs => simp [childBlocks, ih]

mutual

theorem processDirectory_eq : ∀ (h : FSNode) (basePath : String),
    processDirectory h basePath = renderBlocks (dirBlocks h basePath)
  | .file n r, bp => by
    simp [processDirectory, dirBlocks, renderBlocks]
  | .dir n cs, bp => by
    rw [processDirectory, dirBlocks, processEntries_eq cs bp ""]
    simp

theorem processEntries_eq : ∀ (cs : List FSNode) (basePath acc : String),
    processEntries cs basePath acc = acc ++ renderBlocks (childBlocks cs basePath)
  | [], bp, acc => by
    simp [processEntries, childBlocks, renderBlocks]
  | .file n r :: rest, bp, acc => by
    cases r with
    | ok c =>
      simp only [processEntries, processEntries_eq rest]
      simp [childBlocks, renderBlocks, bodyOf, String.append_assoc]
    | error e =>
      simp only [processEntries, processEntries_eq rest]
      simp [childBlocks, renderBlocks, bodyOf, String.append_assoc]
  | .dir n cs2 :: rest, bp, acc => by
    simp only [processEntries, processEntries_eq rest,
      processDirectory_eq (.dir n cs2)]
    simp [childBlocks, renderBlocks_append, String.append_assoc]

end

theorem processCachedFiles_eq (fs : List FileItem) (acc : String) :
    processCachedFiles fs acc = acc ++ renderBlocks (fs.map cachedBlock) := by
  induction fs generalizing acc with
  | nil => simp [processCachedFiles, renderBlocks]
  | cons f rest ih =>
    rw [processCachedFiles, ih]
    cases hf : f.file with
    | none => simp [hf, cachedBlock, renderBlocks, String.append_assoc]
    | some r =>
      cases r with
      | ok c => simp [hf, cachedBlock, renderBlocks, String.append_assoc]
      | error e => simp [hf, cachedBlock, renderBlocks, String.append_assoc]

theorem processItems_eq (st : DirectoryStructure) (sel : List FileItem)
    (acc : String) :
    processItems st sel acc = acc ++ renderBlocks (selectionBlocks st sel) := by
  induction sel generalizing acc with
  | nil => simp [processItems, selectionBlocks, renderBlocks]
  | cons item rest ih =>
    rw [processItems, ih]
    cases ht : item.type with
    | file =>
      cases hr : readFileItem item with
      | ok c =>
        simp [selectionBlocks, itemBlocks, ht, hr, renderBlocks_append,
          renderBlocks, String.append_assoc]
      | error e =>
        simp [selectionBlocks, itemBlocks, ht, hr, renderBlocks_append,
          renderBlocks, String.append_assoc]
    | directory =>
      cases hh : item.handle with
      | some h =>
        simp [selectionBlocks, itemBlocks, ht, hh, renderBlocks_append,
          String.append_assoc, processDirectory_eq]
      | none =>
        simp [selectionBlocks, itemBlocks, ht, hh, renderBlocks_append,
          String.append_assoc, processCachedFiles_eq]

mutual

/-- Number of file nodes in the subtree of a node. -/
def nodeFileCount : FSNode → Nat
  | .file _ _ => 1
  | .dir _ cs => nodesFileCount cs

/-- Number of file nodes in the subtrees of a list of nodes. -/
def nodesFileCount : List FSNode → Nat
  | [] => 0
  | c :: rest => nodeFileCount c + nodesFileCount rest

end

/-- Number of files processDirectory visits when handed a node: every file
in the subtree of a directory handle; none for a file handle, whose
enumeration throws immediately. -/
def dirHandleFileCount : FSNode → Nat
  | .file _ _ => 0
  | .dir _ cs => nodesFileCount cs

/-- Number of files reachable from one selected item: one for a file item,
the subtree file count for a directory item with a handle, the number of
cached file entries under its path for a handle-less directory item. -/
def itemFileCount (st : DirectoryStructure) (item : FileItem) : Nat :=
  match item.type with
  | EntryKind.file => 1
  | EntryKind.directory =>
    match item.handle with
    | some h => dirHandleFileCount h
    | none => (collectFileItemsUnderPath st item.path).length

/-- Total number of files reachable from the selection, summed item by item
with multiplicity. -/
def selectionFileCount (st : DirectoryStructure) : List FileItem → Nat
  | [] => 0
  | i :: rest => itemFileCount st i + selectionFileCount st rest

mutual

theorem dirBlocks_length : ∀ (h : FSNode) (bp : String),
    (dirBlocks h bp).length = dirHandleFileCount h
  | .file n r, bp => by
    simp [dirBlocks, dirHandleFileCount]
  | .dir n cs, bp => by
    simp only [dirBlocks, dirHandleFileCount, childBlocks_length cs bp]

theorem childBlocks_length : ∀ (cs : List FSNode) (bp : String),
    (childBlocks cs bp).length = nodesFileCount cs
  | [], bp => by
    simp [childBlocks, nodesFileCount]
  | .file n r :: rest, bp => by
    simp [childBlocks, nodesFileCount, nodeFileCount,
      childBlocks_length rest bp, Nat.add_comm]
  | .dir n cs2 :: rest, bp => by
    simp [childBlocks, nodesFileCount, nodeFileCount,
      childBlocks_length rest bp, dirBlocks_length (.dir n cs2),
      dirHandleFileCount]

end

theorem itemBlocks_length (st : DirectoryStructure) (item : FileItem) :
    (itemBlocks st item).length = itemFileCount st item := by
  cases ht : item.type with
  | file =>
    cases hr : readFileItem item with
    | ok c => simp [itemBlocks, itemFileCount, ht, hr]
    | error e => simp [itemBlocks, itemFileCount, ht, hr]
  | directory =>
    cases hh : item.handle with
    | some h => simp [itemBlocks, itemFileCount, ht, hh, dirBlocks_length]
    | none => simp [itemBlocks, itemFileCount, ht, hh]

theorem getAllChildItems_path_extends (st : DirectoryStructure)
    (folderPath : String) :
    ∀ c ∈ getAllChildItems st folderPath,
      jsStartsWith c.path (folderPath ++ "/") = true := by
  induction st with
  | nil => simp [getAllChildItems]
  | cons e rest ih =>
    obtain ⟨dirPath, items⟩ := e
    intro c hc
    simp only [getAllChildItems, List.mem_append] at hc
    rcases hc with h1 | h2
    · split at h1
      · obtain ⟨it, hit, rfl⟩ := List.mem_map.mp h1
        exact (List.mem_filter.mp hit).2
      · simp at h1
    · exact ih c h2

theorem jsStartsWith_eq_false_iff (s p : String) :
    jsStartsWith s p = false ↔ ¬ ∃ t : String, s = p ++ t := by
  rw [← jsStartsWith_iff]
  cases h : jsStartsWith s p <;> simp

/-- Splitting lemma: a selected file item whose read fails contributes
exactly one error-marker block at its position, and the items before and
after it are processed unchanged. -/
theorem selectionBlocks_error_split (st : DirectoryStructure)
    (pre post : List FileItem) (item : FileItem) (reason : String)
    (htype : item.type = EntryKind.file)
    (hread : readFileItem item = Except.error reason) :
    selectionBlocks st (pre ++ item :: post)
      = selectionBlocks st pre
        ++ (item.path, errorMarker reason) :: selectionBlocks st post := by
  rw [show pre ++ item :: post = pre ++ [item] ++ post by simp,
    selectionBlocks_append, selectionBlocks_append]
  simp [selectionBlocks, itemBlocks, htype, hread]

/-! Fixtures: concrete items, trees and structures used by witnesses and
counterexamples. -/

/-- Fixture: a readable file item at path a/b.txt with content hello. -/
def helloItem : FileItem :=
  { file := some (Except.ok "hello"), name := "b.txt",
    type := EntryKind.file, selected := true, path := "a/b.txt" }

/-- Fixture: a directory item at path a, not yet selected. -/
def dirA : FileItem :=
  { name := "a", type := EntryKind.directory, selected := false, path := "a" }

/-- Fixture: a readable file item at top-level path c.txt. -/
def fileCD : FileItem :=
  { file := some (Except.ok "C"), name := "c.txt",
    type := EntryKind.file, selected := true, path := "c.txt" }

/-- Fixture: a file item whose read rejects with reason gone. -/
def failItem : FileItem :=
  { file := some (Except.error "gone"), name := "bad.txt",
    type := EntryKind.file, selected := true, path := "a/bad.txt" }

/-- Fixture: a file item with neither an attached File object nor a
handle. -/
def noHandleItem : FileItem :=
  { name := "ghost.txt", type := EntryKind.file, selected := true,
    path := "g/ghost.txt" }

/-- Fixture: a scan root named proj holding one subdirectory sub holding
one file y.txt. -/
def projTree : FSNode :=
  .dir "proj" [.dir "sub" [.file "y.txt" (Except.ok "B")]]

/-- Fixture: a sample component state with a nonempty output document. -/
def sampleState : BrowserState :=
  { directoryStructure := [("r", [])],
    selectedItems := [helloItem],
    outputContent := "kept output",
    rootPath := "r",
    expandedFolders := ["r"] }

/-! Claim theorems. -/

/-- Claim C1 (code bug).  The claim says every entry recorded below the top
level carries its full slash-separated path from the scan root.  The code
compares currentPath with the name of the handle of the CURRENT call, not
the scan root, and since the root call passes the root name and every
recursive call passes the just-computed itemPath of a handle bearing that
very name, the comparison is always true and every recorded path is the
bare child name.  Scanning root proj containing sub containing y.txt
records the entry under sub with path y.txt, not sub/y.txt. -/
theorem scan_records_bare_name_below_top_level :
    ((structGet (scanFromRoot projTree) "sub").map (fun i => i.path)
      = ["y.txt"]) ∧
    ((structGet (scanFromRoot projTree) "sub").map (fun i => i.path)
      ≠ ["sub/y.txt"]) :=
  ⟨rfl, by decide⟩

/-- Claim C4 (confirmed).  Processing a selection consisting of exactly one
file at path a/b.txt with content hello stores exactly the document
consisting of the framed path header and hello; in general, for a nonempty
selection the stored document is the rendering of the block list, each
block as two newlines, the framed path, one newline and the body, trimmed
of surrounding whitespace. -/
theorem single_file_roundtrip_and_block_format :
    ((processSelectedFiles [] [helloItem] "").outputContent
      = "=== a/b.txt ===\nhello") ∧
    (∀ (st : DirectoryStructure) (sel : List FileItem) (out : String),
      sel ≠ [] →
      (processSelectedFiles st sel out).outputContent
        = jsTrim (renderBlocks (selectionBlocks st sel))) := by
  constructor
  · rfl
  · intro st sel out hne
    unfold processSelectedFiles
    rw [if_neg]
    · rw [processItems_eq]
      simp
    · simp [List.length_eq_zero, hne]

/-- Witness for claim C4 at a concrete input. -/
theorem single_file_roundtrip_and_block_format_witness :
    ([helloItem] ≠ ([] : List FileItem)) ∧
    (processSelectedFiles [] [helloItem] "stale").outputContent
      = jsTrim (renderBlocks (selectionBlocks [] [helloItem])) :=
  ⟨List.cons_ne_nil _ _,
    single_file_roundtrip_and_block_format.2 [] [helloItem] "stale"
      (List.cons_ne_nil _ _)⟩

/-- Claim C8 (confirmed).  Calling process with an empty selection leaves
the output document unchanged and raises the empty-selection notice exactly
once; with a nonempty selection no notice is raised at all, every per-item
failure being absorbed into the document, so the empty-selection check is
the only aggregate report of the operation. -/
theorem empty_selection_notice_and_no_aggregate_failure :
    (∀ (st : DirectoryStructure) (out : String),
      processSelectedFiles st [] out
        = { outputContent := out, notices := [Notice.nothingToProcess] }) ∧
    (∀ (st : DirectoryStructure) (sel : List FileItem) (out : String),
      sel ≠ [] →
      (processSelectedFiles st sel out).notices = []) := by
  constructor
  · intro st out
    rfl
  · intro st sel out hne
    unfold processSelectedFiles
    rw [if_neg]
    · simp [List.length_eq_zero, hne]

/-- Witness for claim C8 at concrete inputs. -/
theorem empty_selection_notice_witness :
    (processSelectedFiles [] [] "keep"
      = { outputContent := "keep", notices := [Notice.nothingToProcess] }) ∧
    ([helloItem] ≠ ([] : List FileItem)) ∧
    (processSelectedFiles [] [helloItem] "keep").notices = [] :=
  ⟨empty_selection_notice_and_no_aggregate_failure.1 [] "keep",
    List.cons_ne_nil _ _,
    empty_selection_notice_and_no_aggregate_failure.2 [] [helloItem] "keep"
      (List.cons_ne_nil _ _)⟩

/-- Claim C9 counterexample.  The claim says clear selection empties the
selection alone and leaves the output document unchanged; on a state whose
output is nonempty, clearSelection resets the output to the empty string. -/
theorem clear_selection_clears_output_cex :
    (clearSelection sampleState).outputContent = "" ∧
    sampleState.outputContent ≠ "" :=
  ⟨rfl, by decide⟩

/-- Claim C9 as amended.  clearSelection empties the selection and also
resets the output document, leaving the directory listing, root path and
expanded folders unchanged; clearAll clears all five. -/
theorem clear_selection_and_clear_all_frame (s : BrowserState) :
    (clearSelection s).selectedItems = [] ∧
    (clearSelection s).outputContent = "" ∧
    (clearSelection s).directoryStructure = s.directoryStructure ∧
    (clearSelection s).rootPath = s.rootPath ∧
    (clearSelection s).expandedFolders = s.expandedFolders ∧
    (clearAll s).selectedItems = [] ∧
    (clearAll s).outputContent = "" ∧
    (clearAll s).directoryStructure = [] ∧
    (clearAll s).rootPath = "" ∧
    (clearAll s).expandedFolders = [] :=
  ⟨rfl, rfl, rfl, rfl, rfl, rfl, rfl, rfl, rfl, rfl⟩

/-- Claim C2 (confirmed).  Toggling a currently selected directory entry
removes from the selection exactly the entry itself and every selected
path extending the entry path by a slash; membership of any other item is
preserved. -/
theorem deselect_directory_removes_exactly_entry_and_descendants
    (st : DirectoryStructure) (sel : List FileItem) (item : FileItem)
    (htype : item.type = EntryKind.directory)
    (hsel : sel.any (fun s => s.path == item.path) = true) :
    ∀ s, s ∈ toggleItemSelection st sel item ↔
      (s ∈ sel ∧ s.path ≠ item.path ∧
        ¬ ∃ t : String, s.path = item.path ++ "/" ++ t) := by
  intro s
  simp only [toggleItemSelection, hsel, htype, beq_self_eq_true, if_true]
  rw [List.mem_filter]
  simp only [Bool.and_eq_true, bne_iff_ne, Bool.not_eq_true',
    jsStartsWith_eq_false_iff, String.append_assoc, and_assoc]

/-- Witness for claim C2 at a concrete input. -/
theorem deselect_directory_removes_witness :
    (dirA.type = EntryKind.directory) ∧
    (([{ dirA with selected := true }, helloItem, fileCD].any
      (fun s => s.path == dirA.path)) = true) ∧
    (fileCD ∈ toggleItemSelection []
        [{ dirA with selected := true }, helloItem, fileCD] dirA ↔
      (fileCD ∈ [{ dirA with selected := true }, helloItem, fileCD] ∧
        fileCD.path ≠ dirA.path ∧
        ¬ ∃ t : String, fileCD.path = dirA.path ++ "/" ++ t)) :=
  ⟨rfl, rfl,
    deselect_directory_removes_exactly_entry_and_descendants []
      [{ dirA with selected := true }, helloItem, fileCD] dirA rfl rfl fileCD⟩

/-- Claim C3 counterexample.  Starting from a selection holding the file
a/b.txt with the directory a unselected, toggling the directory a twice
yields the empty selection, not the original one: the claim fails when the
prior selection already contains a descendant of the toggled directory. -/
theorem double_toggle_not_identity_cex :
    ((toggleItemSelection [] (toggleItemSelection [] [helloItem] dirA) dirA).map
      (fun i => i.path) = []) ∧
    ([helloItem].map (fun i => i.path) = ["a/b.txt"]) ∧
    toggleItemSelection [] (toggleItemSelection [] [helloItem] dirA) dirA
      ≠ [helloItem] := by
  refine ⟨rfl, rfl, fun h => ?_⟩
  exact absurd (congrArg (List.map (fun i => i.path)) h) (by decide)

/-- Claim C3 as amended.  Toggling an unselected directory twice in
immediate succession yields the prior selection with every item whose path
extends the directory path by a slash removed; in particular the prior
selection is restored exactly when it contained no such descendant. -/
theorem double_toggle_removes_preselected_descendants
    (st : DirectoryStructure) (sel : List FileItem) (d : FileItem)
    (htype : d.type = EntryKind.directory)
    (hns : ∀ s ∈ sel, s.path ≠ d.path) :
    toggleItemSelection st (toggleItemSelection st sel d) d
      = sel.filter (fun s => !(jsStartsWith s.path (d.path ++ "/"))) := by
  have h1 : sel.any (fun s => s.path == d.path) = false :=
    List.any_eq_false.mpr (fun s hs => by simp [beq_iff_eq, hns s hs])
  have hT : toggleItemSelection st sel d
      = sel.filter (fun s =>
          s.path != d.path && !(jsStartsWith s.path (d.path ++ "/")))
        ++ [{ d with selected := true }] ++ getAllChildItems st d.path := by
    simp [toggleItemSelection, h1, htype]
  have h2 : (toggleItemSelection st sel d).any
      (fun s => s.path == d.path) = true := by
    refine List.any_eq_true.mpr ⟨{ d with selected := true }, ?_, ?_⟩
    · rw [hT]
      simp
    · simp
  have houter : ∀ T : List FileItem,
      T.any (fun s => s.path == d.path) = true →
      toggleItemSelection st T d = T.filter (fun s =>
        s.path != d.path && !(jsStartsWith s.path (d.path ++ "/"))) := by
    intro T hT2
    simp [toggleItemSelection, hT2, htype]
  rw [houter _ h2, hT, List.filter_append, List.filter_append,
    List.filter_filter]
  have hsingle : List.filter (fun s =>
      s.path != d.path && !(jsStartsWith s.path (d.path ++ "/")))
      [{ d with selected := true }] = [] := by
    simp
  have hchild : List.filter (fun s =>
      s.path != d.path && !(jsStartsWith s.path (d.path ++ "/")))
      (getAllChildItems st d.path) = [] := by
    rw [List.filter_eq_nil_iff]
    intro c hc
    simp [getAllChildItems_path_extends st d.path c hc]
  rw [hsingle, hchild]
  have hmain : List.filter (fun s =>
      (s.path != d.path && !(jsStartsWith s.path (d.path ++ "/"))) &&
        (s.path != d.path && !(jsStartsWith s.path (d.path ++ "/")))) sel
      = List.filter (fun s => !(jsStartsWith s.path (d.path ++ "/"))) sel := by
    refine List.filter_congr (fun s hs => ?_)
    simp [bne_iff_ne, hns s hs]
  rw [hmain]
  simp

/-- Witness for the amended claim C3 at a concrete input. -/
theorem double_toggle_removes_witness :
    (dirA.type = EntryKind.directory) ∧
    (helloItem.path ≠ dirA.path) ∧
    toggleItemSelection [] (toggleItemSelection [] [helloItem] dirA) dirA
      = [helloItem].filter
          (fun s => !(jsStartsWith s.path (dirA.path ++ "/"))) :=
  ⟨rfl, by decide,
    double_toggle_removes_preselected_descendants [] [helloItem] dirA rfl
      (by decide)⟩

/-! Claim-side definitions for claims C5 and C6.  These two definitions
follow the words of the claims, not the source, and exist only to be
compared with the behaviour of the embedded code. -/

mutual

/-- Spec-claim definition for claim C5: the files nested under a directory
handle, named by joining the base path with the entry names; a file handle
has no nested files. -/
def claimDirFilePaths : FSNode → String → List String
  | .file _ _, _ => []
  | .dir _ cs, basePath => claimChildFilePaths cs basePath

/-- Spec-claim definition for claim C5: the files nested under a list of
enumerated entries. -/
def claimChildFilePaths : List FSNode → String → List String
  | [], _ => []
  | .file n _ :: rest, bp => (bp ++ "/" ++ n) :: claimChildFilePaths rest bp
  | .dir n cs :: rest, bp =>
    claimDirFilePaths (.dir n cs) (bp ++ "/" ++ n)
      ++ claimChildFilePaths rest bp

end

/-- Spec-claim definition for claim C5: the file paths reachable from one
selected item, a directly selected file or all files under a selected
directory. -/
def claimItemFilePaths (st : DirectoryStructure) (item : FileItem) :
    List String :=
  match item.type with
  | EntryKind.file => [item.path]
  | EntryKind.directory =>
    match item.handle with
    | some h => claimDirFilePaths h item.path
    | none => (collectFileItemsUnderPath st item.path).map (fun f => f.path)

/-- Spec-claim definition for claim C5: the number of distinct files
reachable from the selection, directly selected files plus all files under
selected directories, each counted once, files identified by path. -/
def claimDistinctReachableFileCount (st : DirectoryStructure)
    (sel : List FileItem) : Nat :=
  ((sel.map (claimItemFilePaths st)).flatten).dedup.length

/-- Spec-claim definition for claim C6: the files below the items of one
cached listing level in listing enumeration order, subdirectories visited
recursively in place, recursion depth bounded by the fuel. -/
def claimOrderLevel (st : DirectoryStructure) :
    Nat → List FileItem → List String
  | 0, _ => []
  | Nat.succ f, items =>
    items.flatMap (fun it =>
      if it.type == EntryKind.file then [it.path]
      else claimOrderLevel st f (structGet st it.path))

/-- Spec-claim definition for claim C6: the files below a directory path in
the cached listing, in recursive enumeration order. -/
def claimListingOrderFilePaths (st : DirectoryStructure) (dirPath : String) :
    List String :=
  claimOrderLevel st (st.length + 1) (structGet st dirPath)

/-! Fixtures for claims C5 and C6, reachable through the fallback upload
flow, whose structures carry full paths and whose items have no handles. -/

/-- Fixture: a handle-less directory item at path r/d. -/
def dupDir : FileItem :=
  { name := "d", type := EntryKind.directory, selected := false,
    path := "r/d" }

/-- Fixture: a readable cached file item at path r/d/f. -/
def dupFile : FileItem :=
  { file := some (Except.ok "A"), name := "f", type := EntryKind.file,
    selected := false, path := "r/d/f" }

/-- Fixture: a structure recording r with child d and r/d with child f. -/
def dupStruct : DirectoryStructure := [("r", [dupDir]), ("r/d", [dupFile])]

/-- Fixture: a handle-less subdirectory item at path r/d/x. -/
def orderSubdir : FileItem :=
  { name := "x", type := EntryKind.directory, selected := false,
    path := "r/d/x" }

/-- Fixture: a readable cached file item at path r/d/x/f1. -/
def orderF1 : FileItem :=
  { file := some (Except.ok "1"), name := "f1", type := EntryKind.file,
    selected := false, path := "r/d/x/f1" }

/-- Fixture: a readable cached file item at path r/d/f2. -/
def orderF2 : FileItem :=
  { file := some (Except.ok "2"), name := "f2", type := EntryKind.file,
    selected := false, path := "r/d/f2" }

/-- Fixture: a readable cached file item at path r/d/x/f3. -/
def orderF3 : FileItem :=
  { file := some (Except.ok "3"), name := "f3", type := EntryKind.file,
    selected := false, path := "r/d/x/f3" }

/-- Fixture: a structure where directory r/d enumerates the subdirectory x
before the file f2, and r/d/x holds f1 and f3. -/
def orderStruct : DirectoryStructure :=
  [("r", [dupDir]), ("r/d", [orderSubdir, orderF2]),
    ("r/d/x", [orderF1, orderF3])]

/-- Claim C5 counterexample.  Selecting the directory r/d by a single
toggle puts both the directory and its cached file r/d/f into the
selection; processing then emits the block for r/d/f twice, once through
the directory and once through the directly selected file item, so the
document has two headers while only one distinct file is reachable. -/
theorem header_count_duplicates_cex :
    (selectionBlocks dupStruct (toggleItemSelection dupStruct [] dupDir)
      = [("r/d/f", "A"), ("r/d/f", "A")]) ∧
    (claimDistinctReachableFileCount dupStruct
      (toggleItemSelection dupStruct [] dupDir) = 1) ∧
    ((selectionBlocks dupStruct
        (toggleItemSelection dupStruct [] dupDir)).length
      ≠ claimDistinctReachableFileCount dupStruct
          (toggleItemSelection dupStruct [] dupDir)) :=
  ⟨rfl, rfl, by decide⟩

/-- Claim C5 as amended.  The number of headers in the document equals the
sum over the selected items of the number of files reachable from each
item, with multiplicity rather than deduplicated: one per file item, the
subtree file count per directory item with a handle, and the cached file
count under its path per handle-less directory item, whether or not any
read fails. -/
theorem header_count_eq_sum_of_item_file_counts
    (st : DirectoryStructure) (sel : List FileItem) :
    (selectionBlocks st sel).length = selectionFileCount st sel := by
  induction sel with
  | nil => rfl
  | cons i rest ih =>
    simp [selectionBlocks, selectionFileCount, itemBlocks_length, ih]

theorem renderBlocks_selectionBlocks (st : DirectoryStructure)
    (sel : List FileItem) :
    renderBlocks (selectionBlocks st sel)
      = joinStrings (sel.map (fun i => renderBlocks (itemBlocks st i))) := by
  induction sel with
  | nil => rfl
  | cons i rest ih =>
    simp [selectionBlocks, renderBlocks_append, joinStrings, ih]

theorem childBlocks_render_join (cs : List FSNode) (bp : String) :
    renderBlocks (childBlocks cs bp)
      = joinStrings (cs.map (fun c =>
          match c with
          | .file m r => header (bp ++ "/" ++ m) ++ bodyOf r
          | .dir m cs2 =>
            renderBlocks (dirBlocks (.dir m cs2) (bp ++ "/" ++ m)))) := by
  induction cs with
  | nil => rfl
  | cons c rest ih =>
    cases c with
    | file m r =>
      simp [childBlocks, renderBlocks, joinStrings, ih, String.append_assoc]
    | dir m cs2 =>
      simp [childBlocks, renderBlocks_append, joinStrings, ih]

/-- Claim C6 counterexample.  For the handle-less selected directory r/d,
whose listing enumerates the subdirectory x before the file f2, the code
emits the direct file f2 first and the files of x afterwards, while the
claimed recursive enumeration order puts the files of x first; so blocks
inside a handle-less selected directory do not follow the enumeration order
with subdirectories visited recursively in place. -/
theorem cached_directory_order_cex :
    ((selectionBlocks orderStruct [{ dupDir with selected := true }]).map
      (fun b => b.1) = ["r/d/f2", "r/d/x/f1", "r/d/x/f3"]) ∧
    (claimListingOrderFilePaths orderStruct "r/d"
      = ["r/d/x/f1", "r/d/x/f3", "r/d/f2"]) ∧
    ((selectionBlocks orderStruct [{ dupDir with selected := true }]).map
      (fun b => b.1) ≠ claimListingOrderFilePaths orderStruct "r/d") :=
  ⟨rfl, rfl, by decide⟩

/-- Claim C6 as amended.  The document is the concatenation, in selection
order, of the renderings of each selected item; and within a selected
directory processed through its handle, the content is the concatenation,
in enumeration order, of one block per file entry and of the recursive
content of each subdirectory in place.  For a handle-less selected
directory the blocks instead follow the cached listing grouped by
directory key, as the counterexample shows. -/
theorem document_order_selection_then_enumeration :
    (∀ (st : DirectoryStructure) (sel : List FileItem),
      processItems st sel ""
        = joinStrings (sel.map (fun i => renderBlocks (itemBlocks st i)))) ∧
    (∀ (n bp : String) (cs : List FSNode),
      processDirectory (.dir n cs) bp
        = joinStrings (cs.map (fun c =>
            match c with
            | .file m r => header (bp ++ "/" ++ m) ++ bodyOf r
            | .dir m cs2 =>
              processDirectory (.dir m cs2) (bp ++ "/" ++ m)))) := by
  constructor
  · intro st sel
    rw [processItems_eq, renderBlocks_selectionBlocks]
    simp
  · intro n bp cs
    rw [processDirectory_eq]
    simp only [dirBlocks]
    rw [childBlocks_render_join]
    congr 1
    congr 1
    funext c
    cases c with
    | file m r => rfl
    | dir m cs2 =>
      simp only []
      rw [processDirectory_eq]

/-- Claim C7 (confirmed).  A selected file whose read fails contributes, at
its own position, one block whose body is the bracketed error marker with
the failure reason, and the items before and after it are processed
unchanged, both for directly selected files and for file entries inside a
processed directory: no per-file read failure aborts the operation. -/
theorem read_failure_yields_marker_and_continues :
    (∀ (st : DirectoryStructure) (pre post : List FileItem)
      (item : FileItem) (reason : String),
      item.type = EntryKind.file →
      readFileItem item = Except.error reason →
      selectionBlocks st (pre ++ item :: post)
        = selectionBlocks st pre
          ++ (item.path, errorMarker reason) :: selectionBlocks st post) ∧
    (∀ (dn name reason bp : String) (pre post : List FSNode),
      dirBlocks (.dir dn (pre ++ .file name (Except.error reason) :: post)) bp
        = childBlocks pre bp
          ++ (bp ++ "/" ++ name, errorMarker reason)
            :: childBlocks post bp) := by
  constructor
  · exact fun st pre post item reason htype hread =>
      selectionBlocks_error_split st pre post item reason htype hread
  · intro dn name reason bp pre post
    rw [show pre ++ (.file name (Except.error reason) : FSNode) :: post
        = pre ++ [.file name (Except.error reason)] ++ post by simp]
    simp only [dirBlocks]
    rw [childBlocks_append, childBlocks_append]
    simp [childBlocks, bodyOf]

/-- Witness for claim C7 at a concrete input. -/
theorem read_failure_marker_witness :
    (failItem.type = EntryKind.file) ∧
    (readFileItem failItem = Except.error "gone") ∧
    selectionBlocks [] ([helloItem] ++ failItem :: [fileCD])
      = selectionBlocks [] [helloItem]
        ++ (failItem.path, errorMarker "gone")
          :: selectionBlocks [] [fileCD] :=
  ⟨rfl, rfl,
    read_failure_yields_marker_and_continues.1 [] [helloItem] [fileCD]
      failItem "gone" rfl rfl⟩

/-- Claim C10 (confirmed).  A selected file item with neither an attached
File object nor a handle supporting getFile reads as the error No readable
handle for file; processing emits the corresponding error-marker block
under the item path and the remaining items are processed unchanged, the
whole operation being a total function that throws nothing to its
caller. -/
theorem no_readable_handle_yields_marker
    (st : DirectoryStructure) (pre post : List FileItem) (item : FileItem)
    (htype : item.type = EntryKind.file)
    (hfile : item.file = none)
    (hhandle : Option.all (fun h => !hasGetFile h) item.handle = true) :
    readFileItem item = Except.error "No readable handle for file" ∧
    selectionBlocks st (pre ++ item :: post)
      = selectionBlocks st pre
        ++ (item.path, errorMarker "No readable handle for file")
          :: selectionBlocks st post := by
  have hread : readFileItem item
      = Except.error "No readable handle for file" := by
    unfold readFileItem
    rw [hfile]
    cases hh : item.handle with
    | none => rfl
    | some h =>
      cases h with
      | file n r =>
        rw [hh] at hhandle
        simp [Option.all, hasGetFile] at hhandle
      | dir n cs => rfl
  exact ⟨hread, selectionBlocks_error_split st pre post item _ htype hread⟩

/-- Witness for claim C10 at a concrete input. -/
theorem no_readable_handle_witness :
    (noHandleItem.type = EntryKind.file) ∧
    (noHandleItem.file = none) ∧
    (Option.all (fun h => !hasGetFile h) noHandleItem.handle = true) ∧
    (readFileItem noHandleItem
      = Except.error "No readable handle for file") ∧
    selectionBlocks [] ([] ++ noHandleItem :: [helloItem])
      = selectionBlocks [] []
        ++ (noHandleItem.path, errorMarker "No readable handle for file")
          :: selectionBlocks [] [helloItem] :=
  ⟨rfl, rfl, rfl,
    (no_readable_handle_yields_marker [] [] [helloItem] noHandleItem
      rfl rfl rfl).1,
    (no_readable_handle_yields_marker [] [] [helloItem] noHandleItem
      rfl rfl rfl).2⟩

end Copier
